import Mathlib

/-!
Verification of the order-placement core of the `microservices-demo` fork:
the checkout service's `PlaceOrder` saga (`src/checkoutservice/main.go`),
its exact money arithmetic, the product-origin split, the external
marketplace bridge (`getExternalProduct` / `postExternalOrder`), and the
api service's marketplace existence handler
(`src/apiservice/handlers.go`).

The Go code is embedded shallowly: every downstream collaborator outcome
(gRPC call results, HTTP responses) is an explicit input in an `Env`
record, gRPC/HTTP calls are recorded as `Event`s, fallible Go code
returns `Res` (with `crash` modelling a Go panic), and machine integers
are modelled as `Int` (the money arithmetic is exact integer arithmetic
by design).
-/

set_option autoImplicit false

/-- The reserved nanos modulus: one billion nanos per unit. -/
def nanosMod : Int := 1000000000

/-- The `pb.Money` message: a currency code, whole units, and nanos.
`Units` is `int64` and `Nanos` is `int32` in the proto; both are modelled
as `Int` (the arithmetic below is exact integer arithmetic). -/
structure Money where
  currencyCode : String
  units : Int
  nanos : Int
deriving Repr, DecidableEq

/-- The numeric value of a `Money` in nanos: `units * 1e9 + nanos`. -/
def Money.value (m : Money) : Int := m.units * nanosMod + m.nanos

/-- The representation invariant on `Money` (spec §3): `|nanos|` is below
one billion and `units`/`nanos` carry the same sign or one is zero. -/
def validMoney (m : Money) : Prop :=
  m.nanos.natAbs < 1000000000 ∧
    (0 ≤ m.units ∧ 0 ≤ m.nanos ∨ m.units ≤ 0 ∧ m.nanos ≤ 0)

instance (m : Money) : Decidable (validMoney m) := by
  unfold validMoney; infer_instance

/-- The money package's error for mismatching currency codes. -/
inductive MoneyError where
  | currencyMismatch
deriving Repr, DecidableEq

/-- Carry step of money normalization: when `|nanos|` reached one
billion, carry `±1` into units and reduce nanos by one modulus with
matching sign. -/
def Money.carryPair (u n : Int) : Int × Int :=
  if nanosMod ≤ n then (u + 1, n - nanosMod)
  else if n ≤ -nanosMod then (u - 1, n + nanosMod)
  else (u, n)

/-- Borrow step of money normalization: when units and nanos end up with
opposite signs, move one unit into nanos to realign the signs. -/
def Money.borrowPair (u n : Int) : Int × Int :=
  if 0 < u ∧ n < 0 then (u - 1, n + nanosMod)
  else if u < 0 ∧ 0 < n then (u + 1, n - nanosMod)
  else (u, n)

/-- Modelled from the spec: the `money` package used by the checkout
service (`money.Sum`) is not among the provided sources.  Spec §4.1:
componentwise addition of the `(units, nanos)` pairs followed by the
carry and borrow normalization, keeping the first operand's currency. -/
def Money.sumRaw (a b : Money) : Money :=
  let p := Money.carryPair (a.units + b.units) (a.nanos + b.nanos)
  let q := Money.borrowPair p.1 p.2
  ⟨a.currencyCode, q.1, q.2⟩

/-- Modelled from the spec: `money.Sum` requires identical currency
codes and fails with a currency mismatch otherwise (spec §4.1). -/
def Money.Sum (a b : Money) : Except MoneyError Money :=
  if a.currencyCode = b.currencyCode then .ok (Money.sumRaw a b)
  else .error .currencyMismatch

/-- Modelled from the spec: the doubling loop of `money.MultiplySlow`
(spec §4.1): at each step the current value is doubled (normalizing as
in `sum` — both operands of each inner sum share one currency, so the
currency check always passes and only `sumRaw` is exercised) and, when
the current bit of `n` is set, the doubled value is accumulated into the
running total.  `fuel` is a structural bound on the loop length; it is
consumed once per halving of `n`, so any `fuel ≥ n` is enough. -/
def Money.mulGo : Nat → Money → Money → Nat → Money
  | 0, _, acc, _ => acc
  | _ + 1, _, acc, 0 => acc
  | fuel + 1, cur, acc, n =>
      Money.mulGo fuel (cur.sumRaw cur)
        (if n % 2 = 1 then acc.sumRaw cur else acc) (n / 2)

/-- Modelled from the spec: `money.MultiplySlow` multiplies a money by a
non-negative integer scalar; multiplying by `0` yields the zero money of
the same currency (spec §4.1). -/
def Money.MultiplySlow (a : Money) (n : Nat) : Money :=
  Money.mulGo n a ⟨a.currencyCode, 0, 0⟩ n

theorem Money.carryPair_value (u n : Int) :
    (Money.carryPair u n).1 * nanosMod + (Money.carryPair u n).2 =
      u * nanosMod + n := by
  unfold Money.carryPair
  split_ifs <;> simp [nanosMod] <;> ring

theorem Money.borrowPair_value (u n : Int) :
    (Money.borrowPair u n).1 * nanosMod + (Money.borrowPair u n).2 =
      u * nanosMod + n := by
  unfold Money.borrowPair
  split_ifs <;> simp [nanosMod] <;> ring

/-- Lemma: `sumRaw` preserves the numeric value exactly. -/
theorem Money.sumRaw_value (a b : Money) :
    (a.sumRaw b).value = a.value + b.value := by
  show (Money.sumRaw a b).value = _
  unfold Money.sumRaw Money.value
  simp only
  rw [Money.borrowPair_value, Money.carryPair_value]
  ring

/-- Lemma: `sumRaw` keeps the first operand's currency code. -/
theorem Money.sumRaw_currency (a b : Money) :
    (a.sumRaw b).currencyCode = a.currencyCode := rfl

/-- Lemma: `sumRaw` of two valid monies is valid. -/
theorem Money.sumRaw_valid (a b : Money) (ha : validMoney a)
    (hb : validMoney b) : validMoney (a.sumRaw b) := by
  obtain ⟨ha1, ha2⟩ := ha
  obtain ⟨hb1, hb2⟩ := hb
  show validMoney (Money.sumRaw a b)
  unfold Money.sumRaw Money.carryPair Money.borrowPair validMoney
  simp only [nanosMod] at *
  split_ifs <;> constructor <;> simp_all <;> omega

theorem Money.Sum_eq_ok (a b : Money) (h : a.currencyCode = b.currencyCode) :
    Money.Sum a b = .ok (a.sumRaw b) := by
  simp [Money.Sum, h]

theorem Money.mulGo_value (fuel : Nat) :
    ∀ (cur acc : Money) (n : Nat), n ≤ fuel →
      (Money.mulGo fuel cur acc n).value = acc.value + n * cur.value := by
  induction fuel with
  | zero =>
      intro cur acc n hn
      have hn0 : n = 0 := by omega
      subst hn0
      simp [Money.mulGo]
  | succ fuel ih =>
      intro cur acc n hn
      match n with
      | 0 => simp [Money.mulGo]
      | m + 1 =>
          rw [show Money.mulGo (fuel + 1) cur acc (m + 1) =
            Money.mulGo fuel (cur.sumRaw cur)
              (if (m + 1) % 2 = 1 then acc.sumRaw cur else acc)
              ((m + 1) / 2) from rfl]
          rw [ih _ _ _ (by omega)]
          rw [Money.sumRaw_value]
          have hcast : ((m + 1 : Nat) : Int) =
              2 * (((m + 1) / 2 : Nat) : Int) + (((m + 1) % 2 : Nat) : Int) := by
            exact_mod_cast congrArg (Nat.cast : Nat → Int)
              (by omega : m + 1 = 2 * ((m + 1) / 2) + (m + 1) % 2)
          split_ifs with hpar
          · rw [Money.sumRaw_value, hcast, hpar]
            norm_num
            ring
          · have h2 : (m + 1) % 2 = 0 := by omega
            rw [hcast, h2]
            norm_num
            ring

theorem Money.mulGo_currency (fuel : Nat) :
    ∀ (cur acc : Money) (n : Nat),
      (Money.mulGo fuel cur acc n).currencyCode = acc.currencyCode := by
  induction fuel with
  | zero => intro cur acc n; rfl
  | succ fuel ih =>
      intro cur acc n
      match n with
      | 0 => rfl
      | m + 1 =>
          rw [show Money.mulGo (fuel + 1) cur acc (m + 1) =
            Money.mulGo fuel (cur.sumRaw cur)
              (if (m + 1) % 2 = 1 then acc.sumRaw cur else acc)
              ((m + 1) / 2) from rfl]
          rw [ih]
          split_ifs <;> rfl

/-- The scalar multiple has value `n` times the value of the operand. -/
theorem Money.MultiplySlow_value (a : Money) (n : Nat) :
    (a.MultiplySlow n).value = n * a.value := by
  show (Money.MultiplySlow a n).value = _
  unfold Money.MultiplySlow
  rw [Money.mulGo_value n a _ n le_rfl]
  simp [Money.value]

/-- The scalar multiple keeps the operand's currency code. -/
theorem Money.MultiplySlow_currency (a : Money) (n : Nat) :
    (a.MultiplySlow n).currencyCode = a.currencyCode := by
  show (Money.MultiplySlow a n).currencyCode = _
  unfold Money.MultiplySlow
  rw [Money.mulGo_currency]

/-! ## Data model (genproto messages used by the checkout service) -/

/-- A `pb.CartItem`: product id and quantity.  The quantity is passed to
`money.MultiplySlow` as `uint32(...)`; the claims only concern
non-negative quantities, modelled as `Nat`. -/
structure CartItem where
  productId : String
  quantity : Nat
deriving Repr, DecidableEq

/-- A `pb.OrderItem`: a cart item plus its per-unit cost in the buyer's
currency. -/
structure OrderItem where
  item : CartItem
  cost : Money
deriving Repr, DecidableEq

/-- A `pb.Address`. -/
structure Address where
  streetAddress : String
  city : String
  state : String
  country : String
  zipCode : Int
deriving Repr, DecidableEq

/-- A `pb.OrderResult`. -/
structure OrderResult where
  orderId : String
  shippingTrackingId : String
  shippingCost : Money
  shippingAddress : Address
  items : List OrderItem
deriving Repr, DecidableEq

/-- A `pb.PlaceOrderRequest` (credit card kept opaque). -/
structure PlaceOrderRequest where
  userId : String
  userCurrency : String
  address : Address
  email : String
  creditCard : String
deriving Repr, DecidableEq

/-- A `pb.PlaceOrderResponse`. -/
structure PlaceOrderResponse where
  order : OrderResult
deriving Repr, DecidableEq

/-! ## External marketplace bridge: wire types of `main.go` -/

/-- The `Response` JSON envelope parsed by `getExternalProduct` (and
produced by the api service's handler): `{status, message,
data:{result}}`. -/
structure Response where
  status : String
  message : String
  dataResult : String
deriving Repr, DecidableEq

/-- The `ExternalMoney` struct as serialized in the marketplace order payload. -/
structure ExternalMoney where
  currencyCode : String
  units : Int
  nanos : Int
deriving Repr, DecidableEq

/-- The `ExternalAddress` struct of the marketplace order payload. -/
structure ExternalAddress where
  streetAddress : String
  city : String
  state : String
  country : String
  zipCode : Int
deriving Repr, DecidableEq

/-- The `ExternalOrderItem` struct of the marketplace order payload: the raw
product id string and the cost. -/
structure ExternalOrderItem where
  id : String
  cost : ExternalMoney
deriving Repr, DecidableEq

/-- The `ExternalOrderData` struct, the body POSTed to the marketplace `/order`
endpoint. -/
structure ExternalOrderData where
  orderId : String
  shippingTrackingId : String
  shippingCost : ExternalMoney
  shippingAddress : ExternalAddress
  items : List ExternalOrderItem
deriving Repr, DecidableEq

def toExternalMoney (m : Money) : ExternalMoney :=
  ⟨m.currencyCode, m.units, m.nanos⟩

def toExternalAddress (a : Address) : ExternalAddress :=
  ⟨a.streetAddress, a.city, a.state, a.country, a.zipCode⟩

/-! ## Outcomes, events and the collaborator environment -/

/-- Result of a fallible Go computation: success, a returned error, or a
runtime panic (`crash`). -/
inductive Res (ε α : Type) where
  | ok : α → Res ε α
  | err : ε → Res ε α
  | crash : Res ε α
deriving Repr, DecidableEq

/-- One downstream call issued during a `PlaceOrder` execution.  The
constructors list exactly the collaborator calls present in
`src/checkoutservice/main.go`. -/
inductive Event where
  | getCartCall
  | existCheck (productId : String)
  | getProductCall (productId : String)
  | convertCall (from_ : Money) (toCurrency : String)
  | quoteCall
  | chargeCall (amount : Money)
  | shipCall
  | emptyCartCall
  | emailCall
  | relayPost (payload : ExternalOrderData)
deriving Repr, DecidableEq

/-- Outcome of the HTTP GET issued by `getExternalProduct`, following
its control flow: the transport can fail, reading the body can fail,
JSON unmarshalling can fail, or a `Response` envelope is decoded. -/
inductive HttpResult where
  | transportError (e : String)
  | readError (e : String)
  | decodeError (e : String)
  | ok (r : Response)
deriving Repr, DecidableEq

/-- The error wrapped by `getExternalProduct` for each failure mode. -/
inductive ExtErr where
  | sendErr (e : String)
  | readErr (e : String)
  | unmarshalErr (e : String)
deriving Repr, DecidableEq

/-- Outcomes of every downstream collaborator call, per request: the
shallow embedding of the gRPC/HTTP world the checkout service talks
to. -/
structure Env where
  newUUID : Except String String
  getCart : Except String (List CartItem)
  http : String → HttpResult
  getProduct : String → Except String Money
  convert : Money → String → Except String Money
  getQuote : Except String Money
  charge : Money → Except String String
  shipOrder : Except String String
  emptyCart : Except String Unit
  sendEmail : Except String Unit

/-! ## Product id split and the external bridge -/

/-- Field splitting on a separator character over the character list:
every separator splits, empty fields are kept, and the empty input
yields one empty field — the semantics of Go's `strings.Split` for a
one-character separator. -/
def splitCharsGo (sep : Char) : List Char → List Char → List String
  | [], acc => [String.mk acc.reverse]
  | c :: cs, acc =>
      if c = sep then String.mk acc.reverse :: splitCharsGo sep cs []
      else splitCharsGo sep cs (c :: acc)

/-- Go's `strings.Split(productId, ":")`. -/
def splitFields (productId : String) : List String :=
  splitCharsGo ':' productId.toList []

/-- The store prefix of a product id: the segment before the first
`:` (the whole id when no `:` occurs). -/
def storeOf (productId : String) : String :=
  (splitFields productId).headD ""

/-- The function `getExternalProduct` (main.go lines 354-385), as a function of the
HTTP outcome: every transport/read/decode failure returns
`(false, error)`; a decoded envelope yields `(true, nil)` exactly when
its status is `"Success"`, else `(false, nil)`. -/
def getExternalProduct : HttpResult → Bool × Option ExtErr
  | .transportError e => (false, some (.sendErr e))
  | .readError e => (false, some (.readErr e))
  | .decodeError e => (false, some (.unmarshalErr e))
  | .ok r => if r.status = "Success" then (true, none) else (false, none)

/-- The item collection loop of `postExternalOrder` (main.go lines
415-430): split each order item's product id (the `s[1]` access panics
— `none` — when no `:` is present) and keep, in order, the items whose
store prefix is not `"ONBQ"`. -/
def collectExternalItems : List OrderItem → Option (List ExternalOrderItem)
  | [] => some []
  | it :: rest =>
      match splitFields it.item.productId with
      | store :: _ :: _ =>
          if store ≠ "ONBQ" then
            (collectExternalItems rest).map
              (fun xs => ⟨it.item.productId, toExternalMoney it.cost⟩ :: xs)
          else collectExternalItems rest
      | _ => none

/-- The payload construction of `postExternalOrder` (main.go lines
414-448); `none` models the panic on a malformed product id.  The POST
itself is recorded as a `relayPost` event by `PlaceOrder`. -/
def buildExternalOrder (order : OrderResult) : Option ExternalOrderData :=
  (collectExternalItems order.items).map (fun xs =>
    ⟨order.orderId, order.shippingTrackingId,
      toExternalMoney order.shippingCost,
      toExternalAddress order.shippingAddress, xs⟩)

/-! ## Pricing step (`prepOrderItems`) -/

/-- Errors returned by `prepOrderItems`, one per `fmt.Errorf` site. -/
inductive PrepErr where
  | externalProductUnavailable (productId : String)
  | productFetch (productId : String)
  | convertPrice (productId : String)
deriving Repr, DecidableEq

/-- The external-store gate of one pricing iteration (main.go lines
487-498): split the product id (`s[1]` panics without a `:`); when the
store prefix is not `"ONBQ"`, call the existence check, set the
`isExternal` flag, and fail when the check both errored and reported
false. -/
def lineGate (env : Env) (item : CartItem) (ext : Bool) :
    Res PrepErr Unit × Bool × List Event :=
  match splitFields item.productId with
  | store :: _ :: _ =>
      if store = "ONBQ" then (.ok (), ext, [])
      else
        let pr := getExternalProduct (env.http item.productId)
        if pr.2.isSome ∧ pr.1 = false then
          (.err (.externalProductUnavailable item.productId), true,
            [Event.existCheck item.productId])
        else (.ok (), true, [Event.existCheck item.productId])
  | _ => (.crash, ext, [])

/-- The catalog lookup and currency conversion of one pricing iteration
(main.go lines 499-509). -/
def priceLine (env : Env) (userCurrency : String) (item : CartItem) :
    Res PrepErr OrderItem × List Event :=
  match env.getProduct item.productId with
  | .error _ =>
      (.err (.productFetch item.productId),
        [Event.getProductCall item.productId])
  | .ok priceUsd =>
      match env.convert priceUsd userCurrency with
      | .error _ =>
          (.err (.convertPrice item.productId),
            [Event.getProductCall item.productId,
              Event.convertCall priceUsd userCurrency])
      | .ok price =>
          (.ok ⟨item, price⟩,
            [Event.getProductCall item.productId,
              Event.convertCall priceUsd userCurrency])

/-- The loop of `prepOrderItems` (main.go lines 486-510), threading the
`isExternal` flag, the accumulated order items and the call trace. -/
def prepItemsGo (env : Env) (userCurrency : String) :
    List CartItem → Bool → List OrderItem → List Event →
    Res PrepErr (List OrderItem) × Bool × List Event
  | [], ext, acc, tr => (.ok acc, ext, tr)
  | item :: rest, ext, acc, tr =>
      match lineGate env item ext with
      | (.ok _, ext2, evs) =>
          let pl := priceLine env userCurrency item
          match pl.1 with
          | .ok oi =>
              prepItemsGo env userCurrency rest ext2 (acc ++ [oi])
                (tr ++ evs ++ pl.2)
          | .err e => (.err e, ext2, tr ++ evs ++ pl.2)
          | .crash => (.crash, ext2, tr ++ evs ++ pl.2)
      | (.err e, ext2, evs) => (.err e, ext2, tr ++ evs)
      | (.crash, ext2, evs) => (.crash, ext2, tr ++ evs)

/-- The function `prepOrderItems` (main.go lines 480-512): returns the priced order
items, the `isExternal` flag (also on failure, as in the Go code) and
the trace of calls issued. -/
def prepOrderItems (env : Env) (items : List CartItem)
    (userCurrency : String) :
    Res PrepErr (List OrderItem) × Bool × List Event :=
  prepItemsGo env userCurrency items false [] []

/-! ## Cart fetch, shipping quote, preparation -/

/-- Errors of `prepareOrderItemsAndShippingQuoteFromCart`, one per
wrapping `fmt.Errorf` site. -/
inductive PrepareErr where
  | cartFailure (e : String)
  | prepFailure (e : PrepErr)
  | quoteFailure (e : String)
  | shipConvertFailure (e : String)
deriving Repr, DecidableEq

/-- The `orderPrep` struct. -/
structure OrderPrep where
  orderItems : List OrderItem
  cartItems : List CartItem
  shippingCostLocalized : Money
deriving Repr, DecidableEq

/-- The method `prepareOrderItemsAndShippingQuoteFromCart` (main.go lines
295-318): cart fetch, pricing, USD shipping quote, conversion of the
quote to the buyer's currency. -/
def prepareOrderItemsAndShippingQuoteFromCart (env : Env)
    (userCurrency : String) :
    Res PrepareErr (OrderPrep × Bool) × List Event :=
  match env.getCart with
  | .error e => (.err (.cartFailure e), [Event.getCartCall])
  | .ok cartItems =>
      match prepOrderItems env cartItems userCurrency with
      | (.err e, _, tr) =>
          (.err (.prepFailure e), Event.getCartCall :: tr)
      | (.crash, _, tr) => (.crash, Event.getCartCall :: tr)
      | (.ok orderItems, ext, tr) =>
          match env.getQuote with
          | .error e =>
              (.err (.quoteFailure e),
                Event.getCartCall :: tr ++ [Event.quoteCall])
          | .ok shippingUSD =>
              match env.convert shippingUSD userCurrency with
              | .error e =>
                  (.err (.shipConvertFailure e),
                    Event.getCartCall :: tr ++
                      [Event.quoteCall,
                        Event.convertCall shippingUSD userCurrency])
              | .ok shippingPrice =>
                  (.ok (⟨orderItems, cartItems, shippingPrice⟩, ext),
                    Event.getCartCall :: tr ++
                      [Event.quoteCall,
                        Event.convertCall shippingUSD userCurrency])

/-! ## Grand total (PlaceOrder lines 245-252) -/

/-- The accumulation loop over order items: each iteration multiplies
the item's cost by its quantity and adds it into the running total via
`money.Must(money.Sum(...))`; `none` models the `Must` panic on a
currency mismatch. -/
def totalLoop (t : Money) : List OrderItem → Option Money
  | [] => some t
  | it :: rest =>
      match Money.Sum t (Money.MultiplySlow it.cost it.item.quantity) with
      | .error _ => none
      | .ok t2 => totalLoop t2 rest

/-- The grand-total computation of `PlaceOrder` (main.go lines
245-252): start from the zero money of the buyer's currency, add the
localized shipping cost, then fold the order items left to right. -/
def chargedTotal (userCurrency : String) (shipping : Money)
    (items : List OrderItem) : Option Money :=
  match Money.Sum ⟨userCurrency, 0, 0⟩ shipping with
  | .error _ => none
  | .ok t0 => totalLoop t0 items

/-! ## PlaceOrder (main.go lines 232-287) -/

/-- The gRPC status codes used by `PlaceOrder`. -/
inductive Code where
  | internal
  | unavailable
deriving Repr, DecidableEq

/-- Errors reported by `PlaceOrder`, one per `status.Errorf` site. -/
inductive PlaceErr where
  | uuidFailure
  | prepareFailure (e : PrepareErr)
  | chargeFailure (e : String)
  | shippingError (e : String)
deriving Repr, DecidableEq

/-- The handler `PlaceOrder` (main.go lines 232-287): uuid generation, preparation
(cart + pricing + shipping quote), grand total, card charge
(`Internal` on failure), shipment dispatch (`Unavailable` on failure),
fire-and-forget cart clearing, order result construction, best-effort
confirmation email, and — when any line was external — the marketplace
order relay.  The second component is the trace of downstream calls. -/
def PlaceOrder (env : Env) (req : PlaceOrderRequest) :
    Res (Code × PlaceErr) PlaceOrderResponse × List Event :=
  match env.newUUID with
  | .error _ => (.err (.internal, .uuidFailure), [])
  | .ok orderID =>
      match prepareOrderItemsAndShippingQuoteFromCart env req.userCurrency with
      | (.err e, tr0) => (.err (.internal, .prepareFailure e), tr0)
      | (.crash, tr0) => (.crash, tr0)
      | (.ok (prep, isExternal), tr0) =>
          match chargedTotal req.userCurrency prep.shippingCostLocalized
              prep.orderItems with
          | none => (.crash, tr0)
          | some total =>
              match env.charge total with
              | .error e =>
                  (.err (.internal, .chargeFailure e),
                    tr0 ++ [Event.chargeCall total])
              | .ok _txID =>
                  match env.shipOrder with
                  | .error e =>
                      (.err (.unavailable, .shippingError e),
                        tr0 ++ [Event.chargeCall total, Event.shipCall])
                  | .ok trackingID =>
                      let orderResult : OrderResult :=
                        ⟨orderID, trackingID, prep.shippingCostLocalized,
                          req.address, prep.orderItems⟩
                      let tr1 := tr0 ++
                        [Event.chargeCall total, Event.shipCall,
                          Event.emptyCartCall, Event.emailCall]
                      if isExternal then
                        match buildExternalOrder orderResult with
                        | some payload =>
                            (.ok ⟨orderResult⟩,
                              tr1 ++ [Event.relayPost payload])
                        | none => (.crash, tr1)
                      else (.ok ⟨orderResult⟩, tr1)

/-! ## Api service marketplace handler (`src/apiservice/handlers.go`) -/

/-- A `Shop` entry of `shops.json`. -/
structure Shop where
  name : String
  id : String
deriving Repr, DecidableEq

/-- What `externalProductHandler` writes back. -/
inductive HandlerOut where
  | body (statusCode : Nat) (resp : Response)
  | statusOnly (statusCode : Nat)
  | noWrite
deriving Repr, DecidableEq

/-- The success envelope built by `externalProductHandler`
(handlers.go lines 113-121): top-level status `"OK"`, message, and
`"Success"` inside `data.result`. -/
def marketplaceResponse : Response :=
  ⟨"OK", "Request processed successfully.", "Success"⟩

/-- The handler `externalProductHandler` (handlers.go lines 75-135): load the shop
map (keyed by shop id), bail out silently on a missing/empty id or a
shop-map failure, answer 302 with the success envelope when the id is a
known shop, and 400 otherwise. -/
def externalProductHandler (shopsFile : Except String (List Shop))
    (id : String) : HandlerOut :=
  match shopsFile with
  | .error _ => .noWrite
  | .ok shops =>
      if id = "" then .noWrite
      else if (shops.map Shop.id).contains id then
        .body 302 marketplaceResponse
      else .statusOnly 400

/-! ## Claims about the money arithmetic -/

/-- Claim C2: for Money values `a` and `b` with equal currency codes,
`money.Sum` succeeds with a result whose value (`units * 1e9 + nanos`)
is exactly `value a + value b` and which satisfies the sign/range
invariant of spec §3. -/
theorem claim_C2_sum_exact (a b : Money)
    (hcc : a.currencyCode = b.currencyCode)
    (ha : validMoney a) (hb : validMoney b) :
    ∃ r, Money.Sum a b = .ok r ∧ r.value = a.value + b.value ∧
      validMoney r :=
  ⟨a.sumRaw b, Money.Sum_eq_ok a b hcc, Money.sumRaw_value a b,
    Money.sumRaw_valid a b ha hb⟩

theorem claim_C2_sum_exact_witness :
    ∃ r, Money.Sum ⟨"USD", 1, 750000000⟩ ⟨"USD", 2, 750000000⟩ = .ok r ∧
      r.value = Money.value ⟨"USD", 1, 750000000⟩ +
        Money.value ⟨"USD", 2, 750000000⟩ ∧ validMoney r :=
  claim_C2_sum_exact ⟨"USD", 1, 750000000⟩ ⟨"USD", 2, 750000000⟩ rfl
    (by decide) (by decide)

/-! ## Claims about the external bridge existence check -/

/-- Claim C8: the existence check reports `true` exactly when the body
decodes to an envelope whose status equals `"Success"`; every
transport/read/decode failure is returned as an error paired with
`false`; a decoded envelope with a different status yields `false`
without an error. -/
theorem claim_C8_exists_iff_success (h : HttpResult) :
    ((getExternalProduct h).1 = true ↔
      ∃ r, h = HttpResult.ok r ∧ r.status = "Success") ∧
    ((getExternalProduct h).2.isSome ↔ ∀ r, h ≠ HttpResult.ok r) ∧
    ((getExternalProduct h).2.isSome → (getExternalProduct h).1 = false) ∧
    (∀ r, h = HttpResult.ok r → r.status ≠ "Success" →
      getExternalProduct h = (false, none)) := by
  cases h with
  | transportError e => simp [getExternalProduct]
  | readError e => simp [getExternalProduct]
  | decodeError e => simp [getExternalProduct]
  | ok r =>
      by_cases hs : r.status = "Success" <;>
        simp [getExternalProduct, hs]

theorem claim_C8_exists_iff_success_witness :
    getExternalProduct
        (HttpResult.ok ⟨"OK", "Request processed successfully.", "Success"⟩) =
      (false, none) :=
  (claim_C8_exists_iff_success
      (HttpResult.ok ⟨"OK", "Request processed successfully.", "Success"⟩)).2.2.2
    ⟨"OK", "Request processed successfully.", "Success"⟩ rfl (by decide)

/-! ## Claim about the api service marketplace handler -/

/-- Claim C10: for every shop id present in the shop map, the api
service's own existence endpoint answers with the envelope whose
top-level status is `"OK"` (with `"Success"` only inside
`data.result`), so the checkout bridge's check — which tests the
top-level status against `"Success"` — returns `(false, nil)` on it:
the bridge can never report existence true against this repository's
own handler. -/
theorem claim_C10_own_handler_never_true (shops : List Shop) (id : String)
    (hid : id ≠ "") (hmem : (shops.map Shop.id).contains id = true) :
    externalProductHandler (.ok shops) id = .body 302 marketplaceResponse ∧
    marketplaceResponse.status = "OK" ∧
    marketplaceResponse.dataResult = "Success" ∧
    getExternalProduct (HttpResult.ok marketplaceResponse) =
      (false, none) := by
  refine ⟨?_, rfl, rfl, by decide⟩
  simp only [externalProductHandler]
  rw [if_neg hid, if_pos hmem]

theorem claim_C10_own_handler_never_true_witness :
    externalProductHandler (.ok [⟨"Some Shop", "S1"⟩]) "S1" =
        .body 302 marketplaceResponse ∧
    marketplaceResponse.status = "OK" ∧
    marketplaceResponse.dataResult = "Success" ∧
    getExternalProduct (HttpResult.ok marketplaceResponse) =
      (false, none) :=
  claim_C10_own_handler_never_true [⟨"Some Shop", "S1"⟩] "S1" (by decide)
    (by decide)

/-! ## Claim C1: the grand total -/

theorem totalLoop_spec (c : String) :
    ∀ (items : List OrderItem) (t : Money), t.currencyCode = c →
      (∀ it ∈ items, it.cost.currencyCode = c) →
      ∃ r, totalLoop t items = some r ∧ r.currencyCode = c ∧
        r.value = t.value +
          (items.map
            (fun it => (it.item.quantity : Int) * it.cost.value)).sum := by
  intro items
  induction items with
  | nil =>
      intro t ht _
      exact ⟨t, rfl, ht, by simp⟩
  | cons it rest ih =>
      intro t ht hall
      have hcost : it.cost.currencyCode = c := hall it (by simp)
      have hmulcc :
          (Money.MultiplySlow it.cost it.item.quantity).currencyCode = c := by
        rw [Money.MultiplySlow_currency]; exact hcost
      have hsum : Money.Sum t (Money.MultiplySlow it.cost it.item.quantity) =
          .ok (t.sumRaw (Money.MultiplySlow it.cost it.item.quantity)) :=
        Money.Sum_eq_ok _ _ (by rw [ht, hmulcc])
      obtain ⟨r, hr, hrc, hrv⟩ :=
        ih (t.sumRaw (Money.MultiplySlow it.cost it.item.quantity))
          (by rw [Money.sumRaw_currency]; exact ht)
          (fun x hx => hall x (by simp [hx]))
      refine ⟨r, ?_, hrc, ?_⟩
      · simp only [totalLoop, hsum]
        exact hr
      · rw [hrv, Money.sumRaw_value, Money.MultiplySlow_value]
        simp only [List.map_cons, List.sum_cons]
        ring

theorem chargedTotal_spec (c : String) (shipping : Money)
    (items : List OrderItem) (hs : shipping.currencyCode = c)
    (hi : ∀ it ∈ items, it.cost.currencyCode = c) :
    ∃ t, chargedTotal c shipping items = some t ∧ t.currencyCode = c ∧
      t.value = shipping.value +
        (items.map
          (fun it => (it.item.quantity : Int) * it.cost.value)).sum := by
  unfold chargedTotal
  have hzero : (⟨c, 0, 0⟩ : Money).currencyCode = shipping.currencyCode := by
    rw [hs]
  rw [Money.Sum_eq_ok _ _ hzero]
  obtain ⟨t, h1, h2, h3⟩ := totalLoop_spec c items
    (Money.sumRaw ⟨c, 0, 0⟩ shipping)
    (by rw [Money.sumRaw_currency]) hi
  refine ⟨t, h1, h2, ?_⟩
  rw [h3, Money.sumRaw_value]
  simp [Money.value]

theorem chargeCall_mem_trace (env : Env) (req : PlaceOrderRequest)
    (u : String) (prep : OrderPrep) (ext : Bool) (tr0 : List Event)
    (t : Money) (huuid : env.newUUID = .ok u)
    (hpair : prepareOrderItemsAndShippingQuoteFromCart env req.userCurrency
      = (.ok (prep, ext), tr0))
    (htot : chargedTotal req.userCurrency prep.shippingCostLocalized
      prep.orderItems = some t) :
    Event.chargeCall t ∈ (PlaceOrder env req).2 := by
  simp only [PlaceOrder, huuid, hpair, htot]
  cases hc : env.charge t with
  | error e => simp
  | ok txid =>
      cases hs : env.shipOrder with
      | error e => simp
      | ok tid =>
          by_cases hext : ext
          · simp only [hext, if_true]
            cases hb : buildExternalOrder
                ⟨u, tid, prep.shippingCostLocalized, req.address,
                  prep.orderItems⟩ with
            | some payload => simp
            | none => simp
          · simp [hext]

/-- Claim C1: for every successful preparation, `PlaceOrder` charges the
grand total computed as the money sum of the localized shipping cost
and each item's per-unit cost times its quantity, accumulated left to
right from the zero money of the buyer's currency; its value is exactly
`value shipping + Σ qty * value cost`, and the concrete cart of one
internal item (10 USD, quantity 2) with a 5 USD shipping quote in USD
totals `{USD, 25, 0}`. -/
theorem claim_C1_charged_grand_total (env : Env) (req : PlaceOrderRequest)
    (u : String) (prep : OrderPrep) (ext : Bool) (tr0 : List Event)
    (huuid : env.newUUID = .ok u)
    (hpair : prepareOrderItemsAndShippingQuoteFromCart env req.userCurrency
      = (.ok (prep, ext), tr0))
    (hs : prep.shippingCostLocalized.currencyCode = req.userCurrency)
    (hi : ∀ it ∈ prep.orderItems,
      it.cost.currencyCode = req.userCurrency) :
    (∃ t, chargedTotal req.userCurrency prep.shippingCostLocalized
        prep.orderItems = some t ∧
      t.currencyCode = req.userCurrency ∧
      t.value = prep.shippingCostLocalized.value +
        (prep.orderItems.map
          (fun it => (it.item.quantity : Int) * it.cost.value)).sum ∧
      Event.chargeCall t ∈ (PlaceOrder env req).2) ∧
    chargedTotal "USD" ⟨"USD", 5, 0⟩
        [⟨⟨"ONBQ:OLJCESPC7Z", 2⟩, ⟨"USD", 10, 0⟩⟩] =
      some ⟨"USD", 25, 0⟩ := by
  obtain ⟨t, h1, h2, h3⟩ := chargedTotal_spec req.userCurrency
    prep.shippingCostLocalized prep.orderItems hs hi
  exact ⟨⟨t, h1, h2, h3,
    chargeCall_mem_trace env req u prep ext tr0 t huuid hpair h1⟩,
    by decide⟩

/-- A fully concrete collaborator environment: one internal cart item
priced 10 USD, identity conversion, a 5 USD shipping quote, and all
calls succeeding. -/
def envHappy : Env :=
  ⟨.ok "order-uuid-1",
    .ok [⟨"ONBQ:OLJCESPC7Z", 2⟩],
    fun _ => .transportError "unused",
    fun _ => .ok ⟨"USD", 10, 0⟩,
    fun m _ => .ok m,
    .ok ⟨"USD", 5, 0⟩,
    fun _ => .ok "tx-1",
    .ok "track-1",
    .ok (),
    .ok ()⟩

/-- The concrete request used with `envHappy`. -/
def reqHappy : PlaceOrderRequest :=
  ⟨"user-1", "USD", ⟨"1 Main St", "Town", "ST", "SE", 12345⟩,
    "user@example.com", "4111"⟩

/-- The preparation produced by `envHappy`. -/
def prepHappy : OrderPrep :=
  ⟨[⟨⟨"ONBQ:OLJCESPC7Z", 2⟩, ⟨"USD", 10, 0⟩⟩],
    [⟨"ONBQ:OLJCESPC7Z", 2⟩], ⟨"USD", 5, 0⟩⟩

theorem claim_C1_charged_grand_total_witness :
    (∃ t, chargedTotal reqHappy.userCurrency
        prepHappy.shippingCostLocalized prepHappy.orderItems = some t ∧
      t.currencyCode = reqHappy.userCurrency ∧
      t.value = prepHappy.shippingCostLocalized.value +
        (prepHappy.orderItems.map
          (fun it => (it.item.quantity : Int) * it.cost.value)).sum ∧
      Event.chargeCall t ∈ (PlaceOrder envHappy reqHappy).2) ∧
    chargedTotal "USD" ⟨"USD", 5, 0⟩
        [⟨⟨"ONBQ:OLJCESPC7Z", 2⟩, ⟨"USD", 10, 0⟩⟩] =
      some ⟨"USD", 25, 0⟩ :=
  claim_C1_charged_grand_total envHappy reqHappy "order-uuid-1" prepHappy
    false
    [Event.getCartCall, Event.getProductCall "ONBQ:OLJCESPC7Z",
      Event.convertCall ⟨"USD", 10, 0⟩ "USD", Event.quoteCall,
      Event.convertCall ⟨"USD", 5, 0⟩ "USD"]
    rfl (by decide) rfl (by decide)

/-! ## Claim C3: the product id split crashes without a separator -/

/-- Claim C3 (code bug): a product id without a `:` separator does not
produce a `MalformedProductId` error anywhere the split is performed —
the `s[1]` access panics instead, both in the pricing loop
(`prepOrderItems`) and in the relay filter (`postExternalOrder`).
This theorem evaluates both split sites at the failing input
`"0PUK6V6EV0"`. -/
theorem claim_C3_split_panics :
    (prepOrderItems envHappy [⟨"0PUK6V6EV0", 1⟩] "USD").1 = Res.crash ∧
    collectExternalItems [⟨⟨"0PUK6V6EV0", 1⟩, ⟨"USD", 10, 0⟩⟩] = none := by
  decide

/-! ## Plumbing lemmas for the PlaceOrder failure paths -/

theorem prepare_cart_err (env : Env) (uc : String) (e : String)
    (h : env.getCart = .error e) :
    prepareOrderItemsAndShippingQuoteFromCart env uc =
      (.err (.cartFailure e), [Event.getCartCall]) := by
  simp only [prepareOrderItemsAndShippingQuoteFromCart, h]

theorem prepare_prep_err (env : Env) (uc : String)
    (cart : List CartItem) (pe : PrepErr) (ext : Bool) (tr : List Event)
    (hcart : env.getCart = .ok cart)
    (hprep : prepOrderItems env cart uc = (.err pe, ext, tr)) :
    (prepareOrderItemsAndShippingQuoteFromCart env uc).1 =
      .err (.prepFailure pe) := by
  simp only [prepareOrderItemsAndShippingQuoteFromCart, hcart, hprep]

theorem prepare_quote_err (env : Env) (uc : String)
    (cart : List CartItem) (ois : List OrderItem) (ext : Bool)
    (tr : List Event) (e : String)
    (hcart : env.getCart = .ok cart)
    (hprep : prepOrderItems env cart uc = (.ok ois, ext, tr))
    (hq : env.getQuote = .error e) :
    (prepareOrderItemsAndShippingQuoteFromCart env uc).1 =
      .err (.quoteFailure e) := by
  simp only [prepareOrderItemsAndShippingQuoteFromCart, hcart, hprep, hq]

theorem prepare_conv_err (env : Env) (uc : String)
    (cart : List CartItem) (ois : List OrderItem) (ext : Bool)
    (tr : List Event) (usd : Money) (e : String)
    (hcart : env.getCart = .ok cart)
    (hprep : prepOrderItems env cart uc = (.ok ois, ext, tr))
    (hq : env.getQuote = .ok usd)
    (hc : env.convert usd uc = .error e) :
    (prepareOrderItemsAndShippingQuoteFromCart env uc).1 =
      .err (.shipConvertFailure e) := by
  simp only [prepareOrderItemsAndShippingQuoteFromCart, hcart, hprep, hq, hc]

theorem prepare_ok (env : Env) (uc : String)
    (cart : List CartItem) (ois : List OrderItem) (ext : Bool)
    (tr : List Event) (usd ship : Money)
    (hcart : env.getCart = .ok cart)
    (hprep : prepOrderItems env cart uc = (.ok ois, ext, tr))
    (hq : env.getQuote = .ok usd)
    (hc : env.convert usd uc = .ok ship) :
    prepareOrderItemsAndShippingQuoteFromCart env uc =
      (.ok (⟨ois, cart, ship⟩, ext),
        Event.getCartCall :: tr ++
          [Event.quoteCall, Event.convertCall usd uc]) := by
  simp only [prepareOrderItemsAndShippingQuoteFromCart, hcart, hprep, hq, hc]

theorem PlaceOrder_prepare_err (env : Env) (req : PlaceOrderRequest)
    (u : String) (e : PrepareErr) (huuid : env.newUUID = .ok u)
    (h : (prepareOrderItemsAndShippingQuoteFromCart env
      req.userCurrency).1 = .err e) :
    (PlaceOrder env req).1 = .err (.internal, .prepareFailure e) := by
  rcases hP : prepareOrderItemsAndShippingQuoteFromCart env
    req.userCurrency with ⟨res, tr0⟩
  rw [hP] at h
  simp only at h
  subst h
  simp only [PlaceOrder, huuid, hP]

theorem PlaceOrder_charge_err (env : Env) (req : PlaceOrderRequest)
    (u : String) (prep : OrderPrep) (ext : Bool) (tr0 : List Event)
    (t : Money) (e : String) (huuid : env.newUUID = .ok u)
    (hpair : prepareOrderItemsAndShippingQuoteFromCart env
      req.userCurrency = (.ok (prep, ext), tr0))
    (htot : chargedTotal req.userCurrency prep.shippingCostLocalized
      prep.orderItems = some t)
    (hch : env.charge t = .error e) :
    (PlaceOrder env req).1 = .err (.internal, .chargeFailure e) := by
  simp only [PlaceOrder, huuid, hpair, htot, hch]

theorem PlaceOrder_ship_err (env : Env) (req : PlaceOrderRequest)
    (u : String) (prep : OrderPrep) (ext : Bool) (tr0 : List Event)
    (t : Money) (tx e : String) (huuid : env.newUUID = .ok u)
    (hpair : prepareOrderItemsAndShippingQuoteFromCart env
      req.userCurrency = (.ok (prep, ext), tr0))
    (htot : chargedTotal req.userCurrency prep.shippingCostLocalized
      prep.orderItems = some t)
    (hch : env.charge t = .ok tx)
    (hsh : env.shipOrder = .error e) :
    (PlaceOrder env req).1 = .err (.unavailable, .shippingError e) := by
  simp only [PlaceOrder, huuid, hpair, htot, hch, hsh]

/-! ## Claim C4: which status code shipping failures get -/

/-- A collaborator environment identical to `envHappy` except that the
shipping quote call fails. -/
def envQuoteDown : Env :=
  ⟨.ok "order-uuid-2",
    .ok [⟨"ONBQ:OLJCESPC7Z", 2⟩],
    fun _ => .transportError "unused",
    fun _ => .ok ⟨"USD", 10, 0⟩,
    fun m _ => .ok m,
    .error "shipping quote unavailable",
    fun _ => .ok "tx-1",
    .ok "track-1",
    .ok (),
    .ok ()⟩

/-- A collaborator environment identical to `envHappy` except that the
shipment dispatch call fails. -/
def envShipDown : Env :=
  ⟨.ok "order-uuid-3",
    .ok [⟨"ONBQ:OLJCESPC7Z", 2⟩],
    fun _ => .transportError "unused",
    fun _ => .ok ⟨"USD", 10, 0⟩,
    fun m _ => .ok m,
    .ok ⟨"USD", 5, 0⟩,
    fun _ => .ok "tx-1",
    .error "carrier down",
    .ok (),
    .ok ()⟩

/-- Counterexample to claim C4 as stated: with a failing shipping
quote, `PlaceOrder` reports `Internal`, not `Unavailable`. -/
theorem claim_C4_counterexample :
    (PlaceOrder envQuoteDown reqHappy).1 =
      Res.err (Code.internal,
        PlaceErr.prepareFailure
          (PrepareErr.quoteFailure "shipping quote unavailable")) ∧
    ∀ pe : PlaceErr, (PlaceOrder envQuoteDown reqHappy).1 ≠
      Res.err (Code.unavailable, pe) := by
  have h : (PlaceOrder envQuoteDown reqHappy).1 =
      Res.err (Code.internal,
        PlaceErr.prepareFailure
          (PrepareErr.quoteFailure "shipping quote unavailable")) := by
    decide
  refine ⟨h, fun pe hc => ?_⟩
  rw [h] at hc
  simp at hc

/-- Claim C4 (amended): failures of the shipping quote and of its
conversion to the buyer's currency are reported — like cart, pricing
and payment failures — with status code `Internal`; only a failure of
the shipment dispatch is reported with `Unavailable`. -/
theorem claim_C4_amended_codes (env : Env) (req : PlaceOrderRequest)
    (u : String) (huuid : env.newUUID = .ok u) :
    (∀ e, env.getCart = .error e →
      (PlaceOrder env req).1 =
        .err (Code.internal, .prepareFailure (.cartFailure e))) ∧
    (∀ cart pe ext tr, env.getCart = .ok cart →
      prepOrderItems env cart req.userCurrency = (.err pe, ext, tr) →
      (PlaceOrder env req).1 =
        .err (Code.internal, .prepareFailure (.prepFailure pe))) ∧
    (∀ cart ois ext tr e, env.getCart = .ok cart →
      prepOrderItems env cart req.userCurrency = (.ok ois, ext, tr) →
      env.getQuote = .error e →
      (PlaceOrder env req).1 =
        .err (Code.internal, .prepareFailure (.quoteFailure e))) ∧
    (∀ cart ois ext tr usd e, env.getCart = .ok cart →
      prepOrderItems env cart req.userCurrency = (.ok ois, ext, tr) →
      env.getQuote = .ok usd →
      env.convert usd req.userCurrency = .error e →
      (PlaceOrder env req).1 =
        .err (Code.internal, .prepareFailure (.shipConvertFailure e))) ∧
    (∀ cart ois ext tr usd ship t e, env.getCart = .ok cart →
      prepOrderItems env cart req.userCurrency = (.ok ois, ext, tr) →
      env.getQuote = .ok usd →
      env.convert usd req.userCurrency = .ok ship →
      chargedTotal req.userCurrency ship ois = some t →
      env.charge t = .error e →
      (PlaceOrder env req).1 =
        .err (Code.internal, .chargeFailure e)) ∧
    (∀ cart ois ext tr usd ship t tx e, env.getCart = .ok cart →
      prepOrderItems env cart req.userCurrency = (.ok ois, ext, tr) →
      env.getQuote = .ok usd →
      env.convert usd req.userCurrency = .ok ship →
      chargedTotal req.userCurrency ship ois = some t →
      env.charge t = .ok tx →
      env.shipOrder = .error e →
      (PlaceOrder env req).1 =
        .err (Code.unavailable, .shippingError e)) := by
  refine ⟨?_, ?_, ?_, ?_, ?_, ?_⟩
  · intro e hcart
    exact PlaceOrder_prepare_err env req u _ huuid
      (by rw [prepare_cart_err env req.userCurrency e hcart])
  · intro cart pe ext tr hcart hprep
    exact PlaceOrder_prepare_err env req u _ huuid
      (prepare_prep_err env req.userCurrency cart pe ext tr hcart hprep)
  · intro cart ois ext tr e hcart hprep hq
    exact PlaceOrder_prepare_err env req u _ huuid
      (prepare_quote_err env req.userCurrency cart ois ext tr e hcart
        hprep hq)
  · intro cart ois ext tr usd e hcart hprep hq hc
    exact PlaceOrder_prepare_err env req u _ huuid
      (prepare_conv_err env req.userCurrency cart ois ext tr usd e hcart
        hprep hq hc)
  · intro cart ois ext tr usd ship t e hcart hprep hq hc htot hch
    exact PlaceOrder_charge_err env req u ⟨ois, cart, ship⟩ ext _ t e huuid
      (prepare_ok env req.userCurrency cart ois ext tr usd ship hcart
        hprep hq hc) htot hch
  · intro cart ois ext tr usd ship t tx e hcart hprep hq hc htot hch hsh
    exact PlaceOrder_ship_err env req u ⟨ois, cart, ship⟩ ext _ t tx e huuid
      (prepare_ok env req.userCurrency cart ois ext tr usd ship hcart
        hprep hq hc) htot hch hsh

theorem claim_C4_amended_codes_witness :
    (PlaceOrder envQuoteDown reqHappy).1 =
      Res.err (Code.internal,
        PlaceErr.prepareFailure
          (PrepareErr.quoteFailure "shipping quote unavailable")) ∧
    (PlaceOrder envShipDown reqHappy).1 =
      Res.err (Code.unavailable, PlaceErr.shippingError "carrier down") :=
  ⟨(claim_C4_amended_codes envQuoteDown reqHappy "order-uuid-2"
      rfl).2.2.1 [⟨"ONBQ:OLJCESPC7Z", 2⟩]
      [⟨⟨"ONBQ:OLJCESPC7Z", 2⟩, ⟨"USD", 10, 0⟩⟩] false
      [Event.getProductCall "ONBQ:OLJCESPC7Z",
        Event.convertCall ⟨"USD", 10, 0⟩ "USD"]
      "shipping quote unavailable" rfl (by decide) rfl,
    (claim_C4_amended_codes envShipDown reqHappy "order-uuid-3"
      rfl).2.2.2.2.2 [⟨"ONBQ:OLJCESPC7Z", 2⟩]
      [⟨⟨"ONBQ:OLJCESPC7Z", 2⟩, ⟨"USD", 10, 0⟩⟩] false
      [Event.getProductCall "ONBQ:OLJCESPC7Z",
        Event.convertCall ⟨"USD", 10, 0⟩ "USD"]
      ⟨"USD", 5, 0⟩ ⟨"USD", 5, 0⟩ ⟨"USD", 25, 0⟩ "tx-1" "carrier down"
      rfl (by decide) rfl rfl (by decide) rfl rfl⟩

/-! ## Event classification -/

/-- Is this event an external existence check? -/
def isExistCheck : Event → Bool
  | .existCheck _ => true
  | _ => false

/-- Is this event a marketplace order relay POST? -/
def isRelayPost : Event → Bool
  | .relayPost _ => true
  | _ => false

/-- Is this event a payment charge call? -/
def isChargeCall : Event → Bool
  | .chargeCall _ => true
  | _ => false

/-- Is this event one of the calls issued inside the pricing loop
(`prepOrderItems`)? -/
def isPricingCall : Event → Bool
  | .existCheck _ => true
  | .getProductCall _ => true
  | .convertCall _ _ => true
  | _ => false

/-! ## Claim C7: the relay payload filters internal items -/

theorem collectExternalItems_eq (items : List OrderItem)
    (hwf : ∀ it ∈ items, 2 ≤ (splitFields it.item.productId).length) :
    collectExternalItems items =
      some ((items.filter
          (fun it => storeOf it.item.productId != "ONBQ")).map
        (fun it => ⟨it.item.productId, toExternalMoney it.cost⟩)) := by
  induction items with
  | nil => rfl
  | cons it rest ih =>
      have h2 : 2 ≤ (splitFields it.item.productId).length :=
        hwf it (by simp)
      obtain ⟨store, x, l, hsp⟩ :
          ∃ s x l, splitFields it.item.productId = s :: x :: l := by
        match hm : splitFields it.item.productId with
        | [] => rw [hm] at h2; simp at h2
        | [a] => rw [hm] at h2; simp at h2
        | a :: b :: l => exact ⟨a, b, l, rfl⟩
      have hstore : storeOf it.item.productId = store := by
        simp [storeOf, hsp]
      rw [show collectExternalItems (it :: rest) =
        (match splitFields it.item.productId with
          | store :: _ :: _ =>
              if store ≠ "ONBQ" then
                (collectExternalItems rest).map
                  (fun xs =>
                    ⟨it.item.productId, toExternalMoney it.cost⟩ :: xs)
              else collectExternalItems rest
          | _ => none) from rfl]
      rw [hsp]
      dsimp only
      rw [ih (fun y hy => hwf y (by simp [hy]))]
      by_cases hON : store = "ONBQ"
      · rw [if_neg (not_not_intro hON)]
        have hpred : (storeOf it.item.productId != "ONBQ") = false := by
          simp [hstore, hON]
        simp [List.filter_cons, hpred]
      · rw [if_pos hON]
        have hpred : (storeOf it.item.productId != "ONBQ") = true := by
          simp [hstore, hON]
        simp [List.filter_cons, hpred]

/-- Claim C7: for an order whose item ids all contain the `:`
separator (as every order reaching the relay does — the pricing loop
has already split each id), the relayed payload carries the order's
header fields and exactly the items whose store prefix differs from
`"ONBQ"`, in order, each with its product id and cost. -/
theorem claim_C7_relay_filters_internal (order : OrderResult)
    (hwf : ∀ it ∈ order.items,
      2 ≤ (splitFields it.item.productId).length) :
    buildExternalOrder order = some
      ⟨order.orderId, order.shippingTrackingId,
        toExternalMoney order.shippingCost,
        toExternalAddress order.shippingAddress,
        (order.items.filter
            (fun it => storeOf it.item.productId != "ONBQ")).map
          (fun it => ⟨it.item.productId, toExternalMoney it.cost⟩)⟩ := by
  unfold buildExternalOrder
  rw [collectExternalItems_eq order.items hwf]
  rfl

/-- A concrete order mixing one internal and one external item. -/
def orderMixed : OrderResult :=
  ⟨"order-1", "track-1", ⟨"USD", 5, 0⟩,
    ⟨"1 Main St", "Town", "ST", "SE", 12345⟩,
    [⟨⟨"ONBQ:OLJCESPC7Z", 1⟩, ⟨"USD", 1, 0⟩⟩,
      ⟨⟨"SHOP:B2", 2⟩, ⟨"USD", 2, 500000000⟩⟩]⟩

theorem claim_C7_relay_filters_internal_witness :
    buildExternalOrder orderMixed = some
      ⟨orderMixed.orderId, orderMixed.shippingTrackingId,
        toExternalMoney orderMixed.shippingCost,
        toExternalAddress orderMixed.shippingAddress,
        (orderMixed.items.filter
            (fun it => storeOf it.item.productId != "ONBQ")).map
          (fun it => ⟨it.item.productId, toExternalMoney it.cost⟩)⟩ :=
  claim_C7_relay_filters_internal orderMixed (by decide)

/-! ## Claim C5: the asymmetric existence-check gate -/

/-- Claim C5: for a cart line whose store prefix is not `"ONBQ"`, the
pricing gate calls the existence check and fails exactly when the call
both returned an error and reported existence false; in every other
case (error with `true`, or no error) the line proceeds.  When the
failing combination occurs on a cart line, the whole `PlaceOrder`
aborts before any payment charge, surfacing the error as `Internal`. -/
theorem claim_C5_existence_gate (env : Env) (req : PlaceOrderRequest) :
    (∀ (item : CartItem) (ext : Bool) (store x : String)
        (l : List String),
      splitFields item.productId = store :: x :: l → store ≠ "ONBQ" →
      (((getExternalProduct (env.http item.productId)).2.isSome ∧
          (getExternalProduct (env.http item.productId)).1 = false) →
        lineGate env item ext =
          (.err (.externalProductUnavailable item.productId), true,
            [Event.existCheck item.productId])) ∧
      (¬((getExternalProduct (env.http item.productId)).2.isSome ∧
          (getExternalProduct (env.http item.productId)).1 = false) →
        lineGate env item ext =
          (.ok (), true, [Event.existCheck item.productId]))) ∧
    (∀ (u : String) (item : CartItem) (rest : List CartItem)
        (store x : String) (l : List String),
      env.newUUID = .ok u →
      env.getCart = .ok (item :: rest) →
      splitFields item.productId = store :: x :: l →
      store ≠ "ONBQ" →
      (getExternalProduct (env.http item.productId)).2.isSome →
      (getExternalProduct (env.http item.productId)).1 = false →
      (PlaceOrder env req).1 =
        .err (Code.internal, .prepareFailure (.prepFailure
          (.externalProductUnavailable item.productId))) ∧
      (PlaceOrder env req).2 =
        [Event.getCartCall, Event.existCheck item.productId] ∧
      ∀ m : Money, Event.chargeCall m ∉ (PlaceOrder env req).2) := by
  have hgate : ∀ (item : CartItem) (ext : Bool) (store x : String)
      (l : List String),
      splitFields item.productId = store :: x :: l → store ≠ "ONBQ" →
      (((getExternalProduct (env.http item.productId)).2.isSome ∧
          (getExternalProduct (env.http item.productId)).1 = false) →
        lineGate env item ext =
          (.err (.externalProductUnavailable item.productId), true,
            [Event.existCheck item.productId])) ∧
      (¬((getExternalProduct (env.http item.productId)).2.isSome ∧
          (getExternalProduct (env.http item.productId)).1 = false) →
        lineGate env item ext =
          (.ok (), true, [Event.existCheck item.productId])) := by
    intro item ext store x l hsp hstore
    constructor
    · intro htrig
      simp only [lineGate, hsp]
      rw [if_neg hstore, if_pos htrig]
    · intro hntrig
      simp only [lineGate, hsp]
      rw [if_neg hstore, if_neg hntrig]
  refine ⟨hgate, ?_⟩
  intro u item rest store x l huuid hcart hsp hstore herr hfalse
  have hline : lineGate env item false =
      (.err (.externalProductUnavailable item.productId), true,
        [Event.existCheck item.productId]) :=
    (hgate item false store x l hsp hstore).1 ⟨herr, hfalse⟩
  have hprep : prepOrderItems env (item :: rest) req.userCurrency =
      (.err (.externalProductUnavailable item.productId), true,
        [Event.existCheck item.productId]) := by
    simp only [prepOrderItems, prepItemsGo, hline]
    rfl
  have hpair : prepareOrderItemsAndShippingQuoteFromCart env
      req.userCurrency =
      (.err (.prepFailure (.externalProductUnavailable item.productId)),
        [Event.getCartCall, Event.existCheck item.productId]) := by
    simp only [prepareOrderItemsAndShippingQuoteFromCart, hcart, hprep]
  have hout : PlaceOrder env req =
      (.err (Code.internal, .prepareFailure (.prepFailure
          (.externalProductUnavailable item.productId))),
        [Event.getCartCall, Event.existCheck item.productId]) := by
    simp only [PlaceOrder, huuid, hpair]
  refine ⟨by rw [hout], by rw [hout], ?_⟩
  intro m hm
  rw [hout] at hm
  simp at hm

/-- A collaborator environment with one external cart item whose
existence check fails at the transport level (so it errors and reports
false). -/
def envExtDown : Env :=
  ⟨.ok "order-uuid-4",
    .ok [⟨"SHOP:B2", 1⟩],
    fun _ => .transportError "marketplace down",
    fun _ => .ok ⟨"USD", 10, 0⟩,
    fun m _ => .ok m,
    .ok ⟨"USD", 5, 0⟩,
    fun _ => .ok "tx-1",
    .ok "track-1",
    .ok (),
    .ok ()⟩

theorem claim_C5_existence_gate_witness :
    (PlaceOrder envExtDown reqHappy).1 =
      Res.err (Code.internal,
        PlaceErr.prepareFailure (PrepareErr.prepFailure
          (PrepErr.externalProductUnavailable "SHOP:B2"))) ∧
    (PlaceOrder envExtDown reqHappy).2 =
      [Event.getCartCall, Event.existCheck "SHOP:B2"] ∧
    ∀ m : Money,
      Event.chargeCall m ∉ (PlaceOrder envExtDown reqHappy).2 :=
  (claim_C5_existence_gate envExtDown reqHappy).2 "order-uuid-4"
    ⟨"SHOP:B2", 1⟩ [] "SHOP" "B2" [] rfl rfl (by decide) (by decide)
    (by decide) (by decide)

/-! ## Claim C6: internal-only carts never touch the marketplace -/

theorem priceLine_events (env : Env) (uc : String) (item : CartItem) :
    ∀ e ∈ (priceLine env uc item).2,
      isExistCheck e = false ∧ isRelayPost e = false ∧
        isChargeCall e = false := by
  unfold priceLine
  cases hg : env.getProduct item.productId with
  | error e0 => simp [hg, isExistCheck, isRelayPost, isChargeCall]
  | ok p =>
      cases hc : env.convert p uc with
      | error e0 => simp [hg, hc, isExistCheck, isRelayPost, isChargeCall]
      | ok price => simp [hg, hc, isExistCheck, isRelayPost, isChargeCall]

theorem prepItemsGo_internal (env : Env) (uc : String) :
    ∀ (items : List CartItem) (ext : Bool) (acc : List OrderItem)
      (tr : List Event),
      (∀ it ∈ items, storeOf it.productId = "ONBQ") →
      (prepItemsGo env uc items ext acc tr).2.1 = ext ∧
      ∀ e ∈ (prepItemsGo env uc items ext acc tr).2.2,
        e ∈ tr ∨ (isExistCheck e = false ∧ isRelayPost e = false ∧
          isChargeCall e = false) := by
  intro items
  induction items with
  | nil =>
      intro ext acc tr _
      exact ⟨rfl, fun e he => Or.inl he⟩
  | cons item rest ih =>
      intro ext acc tr hall
      have hsto : storeOf item.productId = "ONBQ" := hall item (by simp)
      have hline : lineGate env item ext = (.ok (), ext, []) ∨
          lineGate env item ext = (.crash, ext, []) := by
        cases hm : splitFields item.productId with
        | nil =>
            right
            simp only [lineGate, hm]
        | cons store rest2 =>
            cases rest2 with
            | nil =>
                right
                simp only [lineGate, hm]
            | cons x l =>
                left
                have hst : store = "ONBQ" := by
                  have h2 := hsto
                  rw [storeOf, hm] at h2
                  simpa using h2
                simp only [lineGate, hm]
                rw [if_pos hst]
      have hplev := priceLine_events env uc item
      rcases hline with hok | hcrash
      · cases hplr : (priceLine env uc item).1 with
        | ok oi =>
            have hrest := ih ext (acc ++ [oi])
              (tr ++ [] ++ (priceLine env uc item).2)
              (fun y hy => hall y (by simp [hy]))
            refine ⟨?_, ?_⟩
            · simp only [prepItemsGo, hok, hplr]
              exact hrest.1
            · intro e he
              simp only [prepItemsGo, hok, hplr] at he
              rcases hrest.2 e he with h | h
              · rw [List.append_nil] at h
                rcases List.mem_append.mp h with h2 | h2
                · exact Or.inl h2
                · exact Or.inr (hplev e h2)
              · exact Or.inr h
        | err e0 =>
            refine ⟨?_, ?_⟩
            · simp only [prepItemsGo, hok, hplr]
            · intro e he
              simp only [prepItemsGo, hok, hplr, List.append_nil] at he
              rcases List.mem_append.mp he with h2 | h2
              · exact Or.inl h2
              · exact Or.inr (hplev e h2)
        | crash =>
            refine ⟨?_, ?_⟩
            · simp only [prepItemsGo, hok, hplr]
            · intro e he
              simp only [prepItemsGo, hok, hplr, List.append_nil] at he
              rcases List.mem_append.mp he with h2 | h2
              · exact Or.inl h2
              · exact Or.inr (hplev e h2)
      · refine ⟨?_, ?_⟩
        · simp only [prepItemsGo, hcrash]
        · intro e he
          simp only [prepItemsGo, hcrash, List.append_nil] at he
          exact Or.inl he

theorem prepare_internal (env : Env) (uc : String) (cart : List CartItem)
    (hcart : env.getCart = .ok cart)
    (hall : ∀ it ∈ cart, storeOf it.productId = "ONBQ") :
    (∀ prep ext,
      (prepareOrderItemsAndShippingQuoteFromCart env uc).1 =
        .ok (prep, ext) → ext = false) ∧
    ∀ e ∈ (prepareOrderItemsAndShippingQuoteFromCart env uc).2,
      isExistCheck e = false ∧ isRelayPost e = false := by
  obtain ⟨hext, hev⟩ :=
    prepItemsGo_internal env uc cart false [] [] hall
  rcases hp : prepOrderItems env cart uc with ⟨res, ext2, tr2⟩
  have hext2 : ext2 = false := by
    have h := hext
    rw [show prepItemsGo env uc cart false [] [] =
      prepOrderItems env cart uc from rfl, hp] at h
    exact h
  have hev2 : ∀ e ∈ tr2,
      isExistCheck e = false ∧ isRelayPost e = false := by
    intro e he
    have h := hev e (by
      rw [show prepItemsGo env uc cart false [] [] =
        prepOrderItems env cart uc from rfl, hp]
      exact he)
    rcases h with h | h
    · simp at h
    · exact ⟨h.1, h.2.1⟩
  subst hext2
  cases res with
  | err e0 =>
      constructor
      · intro prep ext h
        simp only [prepareOrderItemsAndShippingQuoteFromCart, hcart,
          hp] at h
        exact Res.noConfusion h
      · intro e he
        simp only [prepareOrderItemsAndShippingQuoteFromCart, hcart,
          hp] at he
        rcases List.mem_cons.mp he with h | h
        · subst h; exact ⟨rfl, rfl⟩
        · exact hev2 e h
  | crash =>
      constructor
      · intro prep ext h
        simp only [prepareOrderItemsAndShippingQuoteFromCart, hcart,
          hp] at h
        exact Res.noConfusion h
      · intro e he
        simp only [prepareOrderItemsAndShippingQuoteFromCart, hcart,
          hp] at he
        rcases List.mem_cons.mp he with h | h
        · subst h; exact ⟨rfl, rfl⟩
        · exact hev2 e h
  | ok ois =>
      cases hq : env.getQuote with
      | error eq =>
          constructor
          · intro prep ext h
            simp only [prepareOrderItemsAndShippingQuoteFromCart, hcart,
              hp, hq] at h
            exact Res.noConfusion h
          · intro e he
            simp only [prepareOrderItemsAndShippingQuoteFromCart, hcart,
              hp, hq] at he
            rcases List.mem_cons.mp he with h | h
            · subst h; exact ⟨rfl, rfl⟩
            · rcases List.mem_append.mp h with h2 | h2
              · exact hev2 e h2
              · simp only [List.mem_singleton] at h2
                subst h2; exact ⟨rfl, rfl⟩
      | ok usd =>
          cases hcv : env.convert usd uc with
          | error ec =>
              constructor
              · intro prep ext h
                simp only [prepareOrderItemsAndShippingQuoteFromCart,
                  hcart, hp, hq, hcv] at h
                exact Res.noConfusion h
              · intro e he
                simp only [prepareOrderItemsAndShippingQuoteFromCart,
                  hcart, hp, hq, hcv] at he
                rcases List.mem_cons.mp he with h | h
                · subst h; exact ⟨rfl, rfl⟩
                · rcases List.mem_append.mp h with h2 | h2
                  · exact hev2 e h2
                  · rcases List.mem_cons.mp h2 with h3 | h3
                    · subst h3; exact ⟨rfl, rfl⟩
                    · simp only [List.mem_singleton] at h3
                      subst h3; exact ⟨rfl, rfl⟩
          | ok ship =>
              constructor
              · intro prep ext h
                simp only [prepareOrderItemsAndShippingQuoteFromCart,
                  hcart, hp, hq, hcv] at h
                injection h with h2
                injection h2 with h3 h4
                exact h4.symm
              · intro e he
                simp only [prepareOrderItemsAndShippingQuoteFromCart,
                  hcart, hp, hq, hcv] at he
                rcases List.mem_cons.mp he with h | h
                · subst h; exact ⟨rfl, rfl⟩
                · rcases List.mem_append.mp h with h2 | h2
                  · exact hev2 e h2
                  · rcases List.mem_cons.mp h2 with h3 | h3
                    · subst h3; exact ⟨rfl, rfl⟩
                    · simp only [List.mem_singleton] at h3
                      subst h3; exact ⟨rfl, rfl⟩

/-- Claim C6: when every cart item's store prefix is the internal store
id `"ONBQ"`, a `PlaceOrder` execution issues no external existence
check and no marketplace relay POST, and the `isExternal` flag of the
pricing step stays false. -/
theorem claim_C6_internal_cart_no_marketplace (env : Env)
    (req : PlaceOrderRequest) (cart : List CartItem)
    (hcart : env.getCart = .ok cart)
    (hall : ∀ it ∈ cart, storeOf it.productId = "ONBQ") :
    (∀ e ∈ (PlaceOrder env req).2,
      isExistCheck e = false ∧ isRelayPost e = false) ∧
    (prepOrderItems env cart req.userCurrency).2.1 = false := by
  obtain ⟨hextok, hprepev⟩ :=
    prepare_internal env req.userCurrency cart hcart hall
  have hflag : (prepOrderItems env cart req.userCurrency).2.1 = false :=
    (prepItemsGo_internal env req.userCurrency cart false [] [] hall).1
  refine ⟨?_, hflag⟩
  cases huuid : env.newUUID with
  | error e0 =>
      intro e he
      simp only [PlaceOrder, huuid] at he
      simp at he
  | ok u =>
      rcases hP : prepareOrderItemsAndShippingQuoteFromCart env
        req.userCurrency with ⟨res, tr0⟩
      have htr0 : ∀ e ∈ tr0,
          isExistCheck e = false ∧ isRelayPost e = false := by
        intro e he
        exact hprepev e (by rw [hP]; exact he)
      cases res with
      | err e0 =>
          intro e he
          simp only [PlaceOrder, huuid, hP] at he
          exact htr0 e he
      | crash =>
          intro e he
          simp only [PlaceOrder, huuid, hP] at he
          exact htr0 e he
      | ok pe =>
          rcases pe with ⟨prep, ext⟩
          have hextf : ext = false := hextok prep ext (by rw [hP])
          subst hextf
          cases htot : chargedTotal req.userCurrency
            prep.shippingCostLocalized prep.orderItems with
          | none =>
              intro e he
              simp only [PlaceOrder, huuid, hP, htot] at he
              exact htr0 e he
          | some t =>
              cases hch : env.charge t with
              | error ec =>
                  intro e he
                  simp only [PlaceOrder, huuid, hP, htot, hch] at he
                  rcases List.mem_append.mp he with h | h
                  · exact htr0 e h
                  · simp only [List.mem_singleton] at h
                    subst h; exact ⟨rfl, rfl⟩
              | ok tx =>
                  cases hsh : env.shipOrder with
                  | error es =>
                      intro e he
                      simp only [PlaceOrder, huuid, hP, htot, hch,
                        hsh] at he
                      rcases List.mem_append.mp he with h | h
                      · exact htr0 e h
                      · rcases List.mem_cons.mp h with h2 | h2
                        · subst h2; exact ⟨rfl, rfl⟩
                        · simp only [List.mem_singleton] at h2
                          subst h2; exact ⟨rfl, rfl⟩
                  | ok tid =>
                      intro e he
                      simp only [PlaceOrder, huuid, hP, htot, hch, hsh,
                        if_neg (Bool.false_ne_true)] at he
                      rcases List.mem_append.mp he with h | h
                      · exact htr0 e h
                      · rcases List.mem_cons.mp h with h2 | h2
                        · subst h2; exact ⟨rfl, rfl⟩
                        · rcases List.mem_cons.mp h2 with h3 | h3
                          · subst h3; exact ⟨rfl, rfl⟩
                          · rcases List.mem_cons.mp h3 with h4 | h4
                            · subst h4; exact ⟨rfl, rfl⟩
                            · simp only [List.mem_singleton] at h4
                              subst h4; exact ⟨rfl, rfl⟩

theorem claim_C6_internal_cart_no_marketplace_witness :
    (∀ e ∈ (PlaceOrder envHappy reqHappy).2,
      isExistCheck e = false ∧ isRelayPost e = false) ∧
    (prepOrderItems envHappy [⟨"ONBQ:OLJCESPC7Z", 2⟩]
      reqHappy.userCurrency).2.1 = false :=
  claim_C6_internal_cart_no_marketplace envHappy reqHappy
    [⟨"ONBQ:OLJCESPC7Z", 2⟩] rfl (by decide)

/-! ## Claim C9: cart clearing is fire-and-forget -/

theorem lineGate_events (env : Env) (item : CartItem) (ext : Bool) :
    ∀ e ∈ (lineGate env item ext).2.2,
      e = Event.existCheck item.productId := by
  cases hm : splitFields item.productId with
  | nil => simp [lineGate, hm]
  | cons store rest2 =>
      cases rest2 with
      | nil => simp [lineGate, hm]
      | cons x l =>
          by_cases hON : store = "ONBQ"
          · simp [lineGate, hm, hON]
          · simp only [lineGate, hm]
            rw [if_neg hON]
            split_ifs <;> simp

theorem prepItemsGo_no_charge (env : Env) (uc : String) :
    ∀ (items : List CartItem) (ext : Bool) (acc : List OrderItem)
      (tr : List Event),
      ∀ e ∈ (prepItemsGo env uc items ext acc tr).2.2,
        e ∈ tr ∨ isChargeCall e = false := by
  intro items
  induction items with
  | nil => intro ext acc tr e he; exact Or.inl he
  | cons item rest ih =>
      intro ext acc tr e
      have hlev := lineGate_events env item ext
      have hplev := priceLine_events env uc item
      rcases hlg : lineGate env item ext with ⟨lres, ext2, evs⟩
      have hevs : ∀ e2 ∈ evs, isChargeCall e2 = false := by
        intro e2 he2
        have := hlev e2 (by rw [hlg]; exact he2)
        subst this; rfl
      cases lres with
      | ok u0 =>
          cases hplr : (priceLine env uc item).1 with
          | ok oi =>
              intro he
              simp only [prepItemsGo, hlg, hplr] at he
              rcases ih ext2 (acc ++ [oi])
                  (tr ++ evs ++ (priceLine env uc item).2) e he with
                h | h
              · rcases List.mem_append.mp h with h2 | h2
                · rcases List.mem_append.mp h2 with h3 | h3
                  · exact Or.inl h3
                  · exact Or.inr (hevs e h3)
                · exact Or.inr (hplev e h2).2.2
              · exact Or.inr h
          | err e0 =>
              intro he
              simp only [prepItemsGo, hlg, hplr] at he
              rcases List.mem_append.mp he with h2 | h2
              · rcases List.mem_append.mp h2 with h3 | h3
                · exact Or.inl h3
                · exact Or.inr (hevs e h3)
              · exact Or.inr (hplev e h2).2.2
          | crash =>
              intro he
              simp only [prepItemsGo, hlg, hplr] at he
              rcases List.mem_append.mp he with h2 | h2
              · rcases List.mem_append.mp h2 with h3 | h3
                · exact Or.inl h3
                · exact Or.inr (hevs e h3)
              · exact Or.inr (hplev e h2).2.2
      | err e0 =>
          intro he
          simp only [prepItemsGo, hlg] at he
          rcases List.mem_append.mp he with h2 | h2
          · exact Or.inl h2
          · exact Or.inr (hevs e h2)
      | crash =>
          intro he
          simp only [prepItemsGo, hlg] at he
          rcases List.mem_append.mp he with h2 | h2
          · exact Or.inl h2
          · exact Or.inr (hevs e h2)

theorem prepare_no_charge (env : Env) (uc : String) :
    ∀ e ∈ (prepareOrderItemsAndShippingQuoteFromCart env uc).2,
      isChargeCall e = false := by
  cases hcart : env.getCart with
  | error e0 =>
      intro e he
      simp only [prepareOrderItemsAndShippingQuoteFromCart, hcart] at he
      simp only [List.mem_singleton] at he
      subst he; rfl
  | ok cart =>
      rcases hp : prepOrderItems env cart uc with ⟨res, ext2, tr2⟩
      have htr2 : ∀ e ∈ tr2, isChargeCall e = false := by
        intro e he
        rcases prepItemsGo_no_charge env uc cart false [] [] e (by
          rw [show prepItemsGo env uc cart false [] [] =
            prepOrderItems env cart uc from rfl, hp]
          exact he) with h | h
        · simp at h
        · exact h
      cases res with
      | err e0 =>
          intro e he
          simp only [prepareOrderItemsAndShippingQuoteFromCart, hcart,
            hp] at he
          rcases List.mem_cons.mp he with h | h
          · subst h; rfl
          · exact htr2 e h
      | crash =>
          intro e he
          simp only [prepareOrderItemsAndShippingQuoteFromCart, hcart,
            hp] at he
          rcases List.mem_cons.mp he with h | h
          · subst h; rfl
          · exact htr2 e h
      | ok ois =>
          cases hq : env.getQuote with
          | error eq =>
              intro e he
              simp only [prepareOrderItemsAndShippingQuoteFromCart,
                hcart, hp, hq] at he
              rcases List.mem_cons.mp he with h | h
              · subst h; rfl
              · rcases List.mem_append.mp h with h2 | h2
                · exact htr2 e h2
                · simp only [List.mem_singleton] at h2
                  subst h2; rfl
          | ok usd =>
              cases hcv : env.convert usd uc with
              | error ec =>
                  intro e he
                  simp only [prepareOrderItemsAndShippingQuoteFromCart,
                    hcart, hp, hq, hcv] at he
                  rcases List.mem_cons.mp he with h | h
                  · subst h; rfl
                  · rcases List.mem_append.mp h with h2 | h2
                    · exact htr2 e h2
                    · rcases List.mem_cons.mp h2 with h3 | h3
                      · subst h3; rfl
                      · simp only [List.mem_singleton] at h3
                        subst h3; rfl
              | ok ship =>
                  intro e he
                  simp only [prepareOrderItemsAndShippingQuoteFromCart,
                    hcart, hp, hq, hcv] at he
                  rcases List.mem_cons.mp he with h | h
                  · subst h; rfl
                  · rcases List.mem_append.mp h with h2 | h2
                    · exact htr2 e h2
                    · rcases List.mem_cons.mp h2 with h3 | h3
                      · subst h3; rfl
                      · simp only [List.mem_singleton] at h3
                        subst h3; rfl

/-- Replace only the cart-clearing outcome of an environment. -/
def setEmptyCart (env : Env) (v : Except String Unit) : Env :=
  ⟨env.newUUID, env.getCart, env.http, env.getProduct, env.convert,
    env.getQuote, env.charge, env.shipOrder, v, env.sendEmail⟩

theorem lineGate_setEmptyCart (env : Env) (v : Except String Unit)
    (item : CartItem) (ext : Bool) :
    lineGate (setEmptyCart env v) item ext = lineGate env item ext := rfl

theorem priceLine_setEmptyCart (env : Env) (v : Except String Unit)
    (uc : String) (item : CartItem) :
    priceLine (setEmptyCart env v) uc item = priceLine env uc item := rfl

theorem prepItemsGo_setEmptyCart (env : Env) (v : Except String Unit)
    (uc : String) :
    ∀ (items : List CartItem) (ext : Bool) (acc : List OrderItem)
      (tr : List Event),
      prepItemsGo (setEmptyCart env v) uc items ext acc tr =
        prepItemsGo env uc items ext acc tr := by
  intro items
  induction items with
  | nil => intro ext acc tr; rfl
  | cons item rest ih =>
      intro ext acc tr
      simp only [prepItemsGo, lineGate_setEmptyCart,
        priceLine_setEmptyCart, ih]

theorem setEmptyCart_newUUID (env : Env) (v : Except String Unit) :
    (setEmptyCart env v).newUUID = env.newUUID := rfl

theorem setEmptyCart_getCart (env : Env) (v : Except String Unit) :
    (setEmptyCart env v).getCart = env.getCart := rfl

theorem setEmptyCart_getQuote (env : Env) (v : Except String Unit) :
    (setEmptyCart env v).getQuote = env.getQuote := rfl

theorem setEmptyCart_convert (env : Env) (v : Except String Unit) :
    (setEmptyCart env v).convert = env.convert := rfl

theorem setEmptyCart_charge (env : Env) (v : Except String Unit) :
    (setEmptyCart env v).charge = env.charge := rfl

theorem setEmptyCart_shipOrder (env : Env) (v : Except String Unit) :
    (setEmptyCart env v).shipOrder = env.shipOrder := rfl

theorem prepare_setEmptyCart (env : Env) (v : Except String Unit)
    (uc : String) :
    prepareOrderItemsAndShippingQuoteFromCart (setEmptyCart env v) uc =
      prepareOrderItemsAndShippingQuoteFromCart env uc := by
  simp only [prepareOrderItemsAndShippingQuoteFromCart, prepOrderItems,
    prepItemsGo_setEmptyCart, setEmptyCart_getCart, setEmptyCart_getQuote,
    setEmptyCart_convert]

theorem PlaceOrder_emptyCart_irrelevant (env : Env)
    (req : PlaceOrderRequest) (v : Except String Unit) :
    PlaceOrder (setEmptyCart env v) req = PlaceOrder env req := by
  simp only [PlaceOrder, prepare_setEmptyCart, setEmptyCart_newUUID,
    setEmptyCart_charge, setEmptyCart_shipOrder]

/-- Claim C9: once the charge and the shipment dispatch succeeded, a
failing cart-clearing call changes nothing: the response is still a
populated `OrderResult` with no error, the whole execution (result and
call trace) is identical to the one where cart clearing succeeds, the
charge is issued exactly once (no re-charge and no reversal), and the
cart-clearing call itself was made. -/
theorem claim_C9_cart_clear_best_effort (env : Env)
    (req : PlaceOrderRequest) (u : String) (prep : OrderPrep)
    (ext : Bool) (tr0 : List Event) (t : Money) (tx tid ec : String)
    (huuid : env.newUUID = .ok u)
    (hpair : prepareOrderItemsAndShippingQuoteFromCart env
      req.userCurrency = (.ok (prep, ext), tr0))
    (htot : chargedTotal req.userCurrency prep.shippingCostLocalized
      prep.orderItems = some t)
    (hch : env.charge t = .ok tx)
    (hsh : env.shipOrder = .ok tid)
    (hclear : env.emptyCart = .error ec)
    (hwf : ∀ it ∈ prep.orderItems,
      2 ≤ (splitFields it.item.productId).length) :
    (PlaceOrder env req).1 =
      .ok ⟨⟨u, tid, prep.shippingCostLocalized, req.address,
        prep.orderItems⟩⟩ ∧
    PlaceOrder env req = PlaceOrder (setEmptyCart env (.ok ())) req ∧
    ((PlaceOrder env req).2.filter isChargeCall).length = 1 ∧
    Event.emptyCartCall ∈ (PlaceOrder env req).2 := by
  have htr0 : tr0.filter isChargeCall = [] := by
    rw [List.filter_eq_nil]
    intro e he
    have := prepare_no_charge env req.userCurrency e (by
      rw [hpair]; exact he)
    simp [this]
  have hindep : PlaceOrder env req =
      PlaceOrder (setEmptyCart env (.ok ())) req :=
    (PlaceOrder_emptyCart_irrelevant env req (.ok ())).symm
  by_cases hext : ext = true
  · subst hext
    have hb : buildExternalOrder
        ⟨u, tid, prep.shippingCostLocalized, req.address,
          prep.orderItems⟩ = some
        ⟨u, tid, toExternalMoney prep.shippingCostLocalized,
          toExternalAddress req.address,
          (prep.orderItems.filter
              (fun it => storeOf it.item.productId != "ONBQ")).map
            (fun it => ⟨it.item.productId, toExternalMoney it.cost⟩)⟩ := by
      unfold buildExternalOrder
      rw [collectExternalItems_eq prep.orderItems hwf]
      rfl
    refine ⟨?_, hindep, ?_, ?_⟩
    · simp [PlaceOrder, huuid, hpair, htot, hch, hsh, hb]
    · simp [PlaceOrder, huuid, hpair, htot, hch, hsh, hb,
        List.filter_append, htr0, isChargeCall]
    · simp [PlaceOrder, huuid, hpair, htot, hch, hsh, hb]
  · have hextf : ext = false := by
      cases ext
      · rfl
      · exact absurd rfl hext
    subst hextf
    refine ⟨?_, hindep, ?_, ?_⟩
    · simp [PlaceOrder, huuid, hpair, htot, hch, hsh]
    · simp [PlaceOrder, huuid, hpair, htot, hch, hsh,
        List.filter_append, htr0, isChargeCall]
    · simp [PlaceOrder, huuid, hpair, htot, hch, hsh]

/-- The happy-path environment with a failing cart-clearing call. -/
def envClearDown : Env :=
  ⟨.ok "order-uuid-5",
    .ok [⟨"ONBQ:OLJCESPC7Z", 2⟩],
    fun _ => .transportError "unused",
    fun _ => .ok ⟨"USD", 10, 0⟩,
    fun m _ => .ok m,
    .ok ⟨"USD", 5, 0⟩,
    fun _ => .ok "tx-1",
    .ok "track-1",
    .error "cart service down",
    .ok ()⟩

theorem claim_C9_cart_clear_best_effort_witness :
    (PlaceOrder envClearDown reqHappy).1 =
      Res.ok ⟨⟨"order-uuid-5", "track-1",
        prepHappy.shippingCostLocalized, reqHappy.address,
        prepHappy.orderItems⟩⟩ ∧
    PlaceOrder envClearDown reqHappy =
      PlaceOrder (setEmptyCart envClearDown (.ok ())) reqHappy ∧
    ((PlaceOrder envClearDown reqHappy).2.filter isChargeCall).length
      = 1 ∧
    Event.emptyCartCall ∈ (PlaceOrder envClearDown reqHappy).2 :=
  claim_C9_cart_clear_best_effort envClearDown reqHappy "order-uuid-5"
    prepHappy false
    [Event.getCartCall, Event.getProductCall "ONBQ:OLJCESPC7Z",
      Event.convertCall ⟨"USD", 10, 0⟩ "USD", Event.quoteCall,
      Event.convertCall ⟨"USD", 5, 0⟩ "USD"]
    ⟨"USD", 25, 0⟩ "tx-1" "track-1" "cart service down" rfl (by decide)
    (by decide) rfl rfl rfl (by decide)
